import Mathlib

/-!
Verification of the noter-backend view layer (`src/noter_backend/main/views.py`)
against its natural-language specification.

The data model and the request handlers are shallowly embedded: the relational
store is an explicit `Db` record, the Django/guardian object permissions are a
list of (group id, image id) pairs, and each handler becomes a pure function
from a `Db` and a request to an HTTP outcome and (possibly) an updated `Db`.
Handlers are translated from the source; the permission predicate classes
(`main/permissions.py`) and the guardian `assign_perm`/`remove_perm` shortcuts
are not part of the excerpt and are modelled from the spec, as marked on their
doc comments.
-/

namespace Noter

/-- HTTP method of a request, as seen by the permission predicates.  Only the
methods used by the handlers in `views.py` are represented. -/
inductive Method where
  | GET | POST | DELETE
deriving DecidableEq, Repr

/-- Modelled from the spec: a request is a "read" when its method is a safe
(read-only) method; for the methods present here that means GET. -/
def Method.isRead : Method → Bool
  | .GET => true
  | _ => false

/-- A user row: identity with an id and an email (`django.contrib.auth.models.User`). -/
structure User where
  id : Nat
  email : String
deriving DecidableEq, Repr

/-- A group row: a named set of users (`django.contrib.auth.models.Group`);
membership lives in `Db.memberships`. -/
structure Group where
  id : Nat
  name : String
deriving DecidableEq, Repr

/-- An image row (`main.models.Image`): owned by a user (by email), belongs to
a project, has a stored media path.  The object-level view grants live in
`Db.perms`. -/
structure Image where
  id : Nat
  ownerEmail : String
  projectId : Nat
deriving DecidableEq, Repr

/-- A project row (`main.models.Project`): owned by a user (by email). -/
structure Project where
  id : Nat
  ownerEmail : String
deriving DecidableEq, Repr

/-- An annotations row (`main.models.AnnotationsJson`): owned by a user,
associated with one image. -/
structure AnnotationsJson where
  id : Nat
  ownerEmail : String
  imageId : Nat
deriving DecidableEq, Repr

/-- The relational store: the rows of each table, the user–group membership
relation (pairs of user id and group id), and the guardian object-permission
table for `view_obj` on images (pairs of group id and image id). -/
structure Db where
  users : List User
  groups : List Group
  memberships : List (Nat × Nat)
  images : List Image
  projects : List Project
  annotations : List AnnotationsJson
  perms : List (Nat × Nat)
deriving DecidableEq, Repr

/-- HTTP outcome of a handler call.  `serverError` stands for an uncaught
Python exception (which the framework turns into a 500 response). -/
inductive HttpOutcome where
  | s200 | s201 | s204 | s400 | s403 | s404 | serverError
deriving DecidableEq, Repr

/-- `Image.objects.get(pk=pk)` as used in the handlers: the row with the given
primary key, if any. -/
def imageById (db : Db) (pk : Nat) : Option Image :=
  db.images.find? (fun i => i.id == pk)

/-- The distinguished "public" group: `Group.objects.get(id=1)` in
`ShareImages.post`. -/
def publicGroupId : Nat := 1

/-- Modelled from the spec (`main/permissions.py` is not in the excerpt):
the requester owns the resource. -/
def ownsImage (u : User) (i : Image) : Bool :=
  i.ownerEmail == u.email

/-- The user belongs to the group with the given id. -/
def userInGroup (db : Db) (u : User) (gid : Nat) : Bool :=
  db.memberships.contains (u.id, gid)

/-- The group with id `gid` has been granted `view_obj` on image `i`. -/
def groupHasView (db : Db) (gid : Nat) (i : Image) : Bool :=
  db.perms.contains (gid, i.id)

/-- Modelled from the spec: the requester belongs to some group granted view
permission on the image (`ReadOnlyAndHasAccess`, membership part). -/
def hasGroupAccess (db : Db) (u : User) (i : Image) : Bool :=
  db.groups.any (fun g => userInGroup db u g.id && groupHasView db g.id i)

/-- Modelled from the spec: the image's grant set includes the public group
(`ReadOnlyAndPublic`, visibility part). -/
def isPublic (db : Db) (i : Image) : Bool :=
  groupHasView db publicGroupId i

/-- Modelled from the spec: `OwnerAndReadOnly` — true iff the requester owns
the resource and the request is a read. -/
def IsOwnerAndReadOnlyOrRefuse (db : Db) (m : Method) (u : User) (i : Image) : Bool :=
  ownsImage u i && m.isRead

/-- Modelled from the spec: `ReadOnlyAndHasAccess` — true iff the request is a
read and the requester belongs to a group granted view permission on the
resource. -/
def IsReadOnlyAndHasAccessOrRefuse (db : Db) (m : Method) (u : User) (i : Image) : Bool :=
  m.isRead && hasGroupAccess db u i

/-- Modelled from the spec: `ReadOnlyAndPublic` — true iff the request is a
read and the resource's grant set includes the public group. -/
def IsReadOnlyAndPublicOrRefuse (db : Db) (m : Method) (u : User) (i : Image) : Bool :=
  m.isRead && isPublic db i

/-- Modelled from the spec: `OwnerOrRefuse` — true only if the requester owns
the resource, whatever the method. -/
def IsOwnerOrRefuse (u : User) (i : Image) : Bool :=
  ownsImage u i

/-- Modelled from the spec: `OwnerOrReadOnly` — true if the requester owns the
resource, or the request is a read (reads unconditionally allowed). -/
def IsOwnerOrReadOnly (m : Method) (u : User) (ownerEmail : String) : Bool :=
  ownerEmail == u.email || m.isRead

/-- The OR-composed permission on `GetImage`
(`IsOwnerAndReadOnlyOrRefuse | IsReadOnlyAndHasAccessOrRefuse | IsReadOnlyAndPublicOrRefuse`,
views.py line 48): the object check passes iff any disjunct does. -/
def GetImage.permitted (db : Db) (m : Method) (u : User) (i : Image) : Bool :=
  IsOwnerAndReadOnlyOrRefuse db m u i ||
  IsReadOnlyAndHasAccessOrRefuse db m u i ||
  IsReadOnlyAndPublicOrRefuse db m u i

/-- `GetImage.get` (views.py 47–74): fetch the image by pk (404 if absent),
check the OR-composed object permission (403 if it fails), else 200 with the
media redirect.  The signed-URL/redirect body is environment glue and is not
modelled; only the outcome matters to the claims. -/
def GetImage.get (db : Db) (u : User) (pk : Nat) : HttpOutcome :=
  match imageById db pk with
  | none => .s404
  | some i => if GetImage.permitted db .GET u i then .s200 else .s403

/-- Modelled from the spec: `resolveAccess(U, I)` — U owns I, or U is in a
group granted view on I, or I is public.  Written from the spec's words to be
compared with the source-derived `GetImage.get`. -/
def resolveAccess (db : Db) (u : User) (i : Image) : Bool :=
  ownsImage u i || hasGroupAccess db u i || isPublic db i

/-- Python's `str.lower()` as applied to the `public` flag: each character
lowercased. -/
def pyLower (s : String) : String := String.mk (s.data.map Char.toLower)

/-- Modelled from the spec: guardian's `assign_perm('view_obj', group, image)`
— grants view permission to the group on the image; a grant already present is
not duplicated. -/
def assignPerm (gid iid : Nat) (perms : List (Nat × Nat)) : List (Nat × Nat) :=
  if perms.contains (gid, iid) then perms else perms ++ [(gid, iid)]

/-- Modelled from the spec: guardian's `remove_perm('view_obj', group, image)`
— removes the view-permission grant of the group on the image. -/
def removePerm (gid iid : Nat) (perms : List (Nat × Nat)) : List (Nat × Nat) :=
  perms.filter (fun p => p ≠ (gid, iid))

/-- The body of a `ShareImages` request: `request.data` may or may not carry
each of `image_ids`, `group_ids` and `public` (a string flag). -/
structure ShareRequest where
  image_ids : Option (List Nat)
  group_ids : Option (List Nat)
  public : Option String
deriving DecidableEq, Repr

/-- `'public' in request.data and request.data['public'].lower() == 'true'`
(views.py line 81). -/
def ShareRequest.publicTruthy (r : ShareRequest) : Bool :=
  match r.public with
  | some s => pyLower s == "true"
  | none => false

/-- The loop body of `ShareImages.post` (views.py 84–92), processing the
filtered images in order and threading the permission table.  Per image:
`check_object_permissions` with `IsOwnerOrRefuse` (403 stops the batch,
keeping the grants already made); then `request.data['public'].lower()` — an
uncaught KeyError (500) when the request has no `public` key; when the flag is
truthy, `Group.objects.get(id=1)` (uncaught `Group.DoesNotExist`, 500, if the
public group row is missing) and a grant to it; then, when `group_ids` is
present, a grant to every group whose id is listed. -/
def sharePostLoop (u : User) (pub : Option String) (gids : Option (List Nat))
    (groups : List Group) :
    List Image → List (Nat × Nat) → HttpOutcome × List (Nat × Nat)
  | [], perms => (.s200, perms)
  | i :: rest, perms =>
    if IsOwnerOrRefuse u i then
      match pub with
      | none => (.serverError, perms)
      | some s =>
        let afterPublic : Option (List (Nat × Nat)) :=
          if pyLower s == "true" then
            match groups.find? (fun g => g.id == publicGroupId) with
            | none => none
            | some pg => some (assignPerm pg.id i.id perms)
          else
            some perms
        match afterPublic with
        | none => (.serverError, perms)
        | some perms1 =>
          let perms2 :=
            match gids with
            | none => perms1
            | some l =>
              (groups.filter (fun g => l.contains g.id)).foldl
                (fun ps g => assignPerm g.id i.id ps) perms1
          sharePostLoop u pub gids groups rest perms2
    else
      (.s403, perms)

/-- `ShareImages.post` (views.py 80–93): 400 unless `image_ids` is present and
(`group_ids` is present or the `public` flag is truthy); otherwise iterate over
the images whose ids are listed, granting as described in `sharePostLoop`. -/
def ShareImages.post (db : Db) (u : User) (r : ShareRequest) : HttpOutcome × Db :=
  match r.image_ids with
  | none => (.s400, db)
  | some ids =>
    if r.group_ids.isSome || r.publicTruthy then
      let imgs := db.images.filter (fun i => ids.contains i.id)
      let (st, perms) := sharePostLoop u r.public r.group_ids db.groups imgs db.perms
      (st, { db with perms := perms })
    else
      (.s400, db)

/-- The loop of `ShareImages.delete` (views.py 99–102): per owned image,
remove the view grant of every listed group; a non-owned image stops the batch
with 403. -/
def shareDeleteLoop (u : User) (gids : List Nat) (groups : List Group) :
    List Image → List (Nat × Nat) → HttpOutcome × List (Nat × Nat)
  | [], perms => (.s200, perms)
  | i :: rest, perms =>
    if IsOwnerOrRefuse u i then
      let perms1 :=
        (groups.filter (fun g => gids.contains g.id)).foldl
          (fun ps g => removePerm g.id i.id ps) perms
      shareDeleteLoop u gids groups rest perms1
    else
      (.s403, perms)

/-- `ShareImages.delete` (views.py 95–103): 400 unless both `image_ids` and
`group_ids` are present; otherwise iterate and revoke. -/
def ShareImages.delete (db : Db) (u : User) (r : ShareRequest) : HttpOutcome × Db :=
  match r.image_ids, r.group_ids with
  | some ids, some gids =>
    let imgs := db.images.filter (fun i => ids.contains i.id)
    let (st, perms) := shareDeleteLoop u gids db.groups imgs db.perms
    (st, { db with perms := perms })
  | _, _ => (.s400, db)

/-- `request.user.groups.filter(name=group_name).exists()` (views.py 171):
the acting user belongs to a group with the given name. -/
def memberOfNamed (db : Db) (u : User) (name : String) : Bool :=
  db.groups.any (fun g => g.name == name && userInGroup db u g.id)

/-- Add a user–group membership row (`user.groups.add(group)`); an existing
membership is not duplicated. -/
def addMembership (db : Db) (uid gid : Nat) : Db :=
  if db.memberships.contains (uid, gid) then db
  else { db with memberships := db.memberships ++ [(uid, gid)] }

/-- Remove a user–group membership row (`user.groups.remove(group)`). -/
def removeMembership (db : Db) (uid gid : Nat) : Db :=
  { db with memberships := db.memberships.filter (fun p => p ≠ (uid, gid)) }

/-- `JoinGroup.post` (views.py 170–179): 403 unless the acting user already
belongs to a group with the given name; 400 without an `email` field;
`get_user_or_404` resolves the target by email (`User.DoesNotExist` caught,
404); `get_group_or_404` resolves the group by name, but its `except` clause
names `User.DoesNotExist` (views.py 167), so a missing group raises an
uncaught `Group.DoesNotExist` (500); then the membership is added and 200
returned. -/
def JoinGroup.post (db : Db) (u : User) (groupName : String)
    (email : Option String) : HttpOutcome × Db :=
  if memberOfNamed db u groupName then
    match email with
    | none => (.s400, db)
    | some e =>
      match db.users.find? (fun x => x.email == e) with
      | none => (.s404, db)
      | some target =>
        match db.groups.find? (fun g => g.name == groupName) with
        | none => (.serverError, db)
        | some g => (.s200, addMembership db target.id g.id)
  else
    (.s403, db)

/-- `JoinGroup.delete` (views.py 181–190): same gates, removing the
membership. -/
def JoinGroup.delete (db : Db) (u : User) (groupName : String)
    (email : Option String) : HttpOutcome × Db :=
  if memberOfNamed db u groupName then
    match email with
    | none => (.s400, db)
    | some e =>
      match db.users.find? (fun x => x.email == e) with
      | none => (.s404, db)
      | some target =>
        match db.groups.find? (fun g => g.name == groupName) with
        | none => (.serverError, db)
        | some g => (.s200, removeMembership db target.id g.id)
  else
    (.s403, db)

/-- Modelled from the spec (`main/serializers.py` is not in the excerpt):
`GroupSerializer(data=...).is_valid()` — the group name must be supplied,
non-empty, and not already taken (Django's `Group.name` is unique). -/
def groupDataValid (db : Db) (name : String) : Bool :=
  name ≠ "" && db.groups.all (fun g => g.name ≠ name)

/-- A fresh primary key for a new group row. -/
def freshGroupId (db : Db) : Nat :=
  (db.groups.map (fun g => g.id)).foldl max 0 + 1

/-- `CreateGroup.post` (views.py 130–137): validate the serializer data (400
on failure); save the group; then `request.user.groups.add(group)` — the
requester becomes a member of the new group; 201. -/
def CreateGroup.post (db : Db) (u : User) (name : String) : HttpOutcome × Db :=
  if groupDataValid db name then
    let g : Group := { id := freshGroupId db, name := name }
    let db1 := { db with groups := db.groups ++ [g] }
    (.s201, addMembership db1 u.id g.id)
  else
    (.s400, db)

/-- `ProjectDetail.get_object` (views.py 198–202): calls
`get_object_or_404(queryset, **filter)`, where `filter` is an undefined name
resolving to the Python builtin `filter`; unpacking a builtin function with
`**` raises an uncaught `TypeError`, so every retrieval ends in a 500. -/
def ProjectDetail.get (db : Db) (u : User) (pk : Nat) : HttpOutcome :=
  .serverError

/-- `AnnotationsJsonDetail` (views.py 219–221): a plain `RetrieveAPIView` with
no `permission_classes`, so no object-level permission predicate runs: fetch
by pk, 404 if absent, else 200 with the serialized row — for any requester. -/
def AnnotationsJsonDetail.get (db : Db) (u : User) (pk : Nat) :
    HttpOutcome × Option AnnotationsJson :=
  match db.annotations.find? (fun a => a.id == pk) with
  | none => (.s404, none)
  | some a => (.s200, some a)

/-- `ImageList.get` (views.py 228–231): `Image.objects.all()` serialized —
every image row, for any requester, with no permission predicate. -/
def ImageList.get (db : Db) (u : User) : HttpOutcome × List Image :=
  (.s200, db.images)

/-- `ImageDetail.get_object` (views.py 247–253): fetch by pk (404 if absent)
and `check_object_permissions` with `IsOwnerOrRefuse` (403 unless the
requester owns the image). -/
def ImageDetail.getObject (db : Db) (u : User) (pk : Nat) :
    HttpOutcome × Option Image :=
  match imageById db pk with
  | none => (.s404, none)
  | some i => if IsOwnerOrRefuse u i then (.s200, some i) else (.s403, none)

/-- `ImageDetail.get` (views.py 256–259): the object (owner-gated), serialized. -/
def ImageDetail.get (db : Db) (u : User) (pk : Nat) : HttpOutcome × Option Image :=
  ImageDetail.getObject db u pk

/-- `image.delete()`: remove the image row. -/
def deleteImage (db : Db) (pk : Nat) : Db :=
  { db with images := db.images.filter (fun i => i.id ≠ pk) }

/-- `ImageDetail.delete` (views.py 269–272): the owner-gated object is
deleted, 204; a non-owner gets 403 with the store untouched. -/
def ImageDetail.delete (db : Db) (u : User) (pk : Nat) : HttpOutcome × Db :=
  match imageById db pk with
  | none => (.s404, db)
  | some i =>
    if IsOwnerOrRefuse u i then (.s204, deleteImage db pk) else (.s403, db)

/-! ### Concrete fixtures used by witnesses and counterexamples -/

/-- A user owning the sample image. -/
def alice : User := ⟨1, "alice@example.com"⟩

/-- A user owning nothing in the sample store. -/
def bob : User := ⟨2, "bob@example.com"⟩

/-- A sample image owned by alice. -/
def img7 : Image := ⟨7, "alice@example.com", 3⟩

/-- A second sample image owned by alice. -/
def img8 : Image := ⟨8, "alice@example.com", 3⟩

/-- An image owned by bob. -/
def img9 : Image := ⟨9, "bob@example.com", 3⟩

/-- A sample group. -/
def grp5 : Group := ⟨5, "team"⟩

/-- A sample annotations row owned by alice. -/
def ann4 : AnnotationsJson := ⟨4, "alice@example.com", 7⟩

/-- A sample store: alice and bob, the group `grp5` with bob as its only
member, alice's images and annotation, no view grants. -/
def exDb : Db :=
  ⟨[alice, bob], [grp5], [(bob.id, grp5.id)], [img7, img8, img9], [], [ann4], []⟩

/-- The sample store with one pre-existing grant: `grp5` may already view
`img7`. -/
def exDbShared : Db := { exDb with perms := [(grp5.id, img7.id)] }

/-- The distinguished public group row (id 1). -/
def pubGrp : Group := ⟨1, "public"⟩

/-- The sample store with the public group row present. -/
def exDbPub : Db := { exDb with groups := [pubGrp, grp5] }

/-! ### Theorems -/

/-- On a GET request the OR-composed `GetImage` permission coincides with the
spec's `resolveAccess`. -/
theorem permitted_GET_eq_resolveAccess (db : Db) (u : User) (i : Image) :
    GetImage.permitted db .GET u i = resolveAccess db u i := by
  simp [GetImage.permitted, resolveAccess, IsOwnerAndReadOnlyOrRefuse,
    IsReadOnlyAndHasAccessOrRefuse, IsReadOnlyAndPublicOrRefuse, Method.isRead]

/-- C1: a GET media-retrieval request for image `pk` by `u` is answered 200
iff the image exists and `u` owns it, or `u` belongs to a group granted view
permission on it, or its grant set includes the public group; every other
request for `pk` is denied with 403 or 404. -/
theorem getImage_allows_iff_resolveAccess (db : Db) (u : User) (pk : Nat) :
    (GetImage.get db u pk = .s200 ↔
      ∃ i, imageById db pk = some i ∧ resolveAccess db u i = true) ∧
    (GetImage.get db u pk = .s200 ∨ GetImage.get db u pk = .s403 ∨
      GetImage.get db u pk = .s404) := by
  unfold GetImage.get
  cases hi : imageById db pk with
  | none =>
    dsimp only
    refine ⟨⟨(fun h => by cases h), ?_⟩, Or.inr (Or.inr rfl)⟩
    rintro ⟨i, hii, -⟩
    cases hii
  | some i =>
    dsimp only
    rw [permitted_GET_eq_resolveAccess]
    by_cases ha : resolveAccess db u i = true
    · rw [if_pos ha]
      exact ⟨⟨fun _ => ⟨i, rfl, ha⟩, fun _ => rfl⟩, Or.inl rfl⟩
    · rw [if_neg ha]
      refine ⟨⟨(fun h => by cases h), ?_⟩, Or.inr (Or.inl rfl)⟩
      rintro ⟨j, hj, hacc⟩
      cases hj
      exact absurd hacc ha

/-- C10: the image-detail (metadata) endpoint succeeds only for the owner;
a non-owner is refused 403 whatever the grant table or public flag says. -/
theorem imageDetail_get_owner_only (db : Db) (u : User) (pk : Nat) :
    ((ImageDetail.get db u pk).1 = .s200 ↔
      ∃ i, imageById db pk = some i ∧ i.ownerEmail = u.email) ∧
    (∀ i, imageById db pk = some i → i.ownerEmail ≠ u.email →
      (ImageDetail.get db u pk).1 = .s403) := by
  unfold ImageDetail.get ImageDetail.getObject
  cases hi : imageById db pk with
  | none =>
    dsimp only
    refine ⟨⟨(fun h => by cases h), ?_⟩, ?_⟩
    · rintro ⟨i, hii, -⟩
      cases hii
    · intro i hii
      cases hii
  | some i =>
    dsimp only
    by_cases ho : IsOwnerOrRefuse u i = true
    · have ho' : i.ownerEmail = u.email := by
        simpa [IsOwnerOrRefuse, ownsImage] using ho
      rw [if_pos ho]
      refine ⟨⟨fun _ => ⟨i, rfl, ho'⟩, fun _ => rfl⟩, ?_⟩
      rintro j hj hne
      cases hj
      exact absurd ho' hne
    · have ho' : ¬ i.ownerEmail = u.email := by
        simpa [IsOwnerOrRefuse, ownsImage] using ho
      rw [if_neg ho]
      refine ⟨⟨(fun h => by cases h), ?_⟩, fun j hj _ => rfl⟩
      rintro ⟨j, hj, hown⟩
      cases hj
      exact absurd hown ho'

/-- C3 counterexample: in `exDb`, bob owns neither `img7` nor `ann4`, belongs
to no group granted anything, and nothing is public, yet listing images hands
bob every image (alice's included) with 200, and retrieving annotation 4 hands
bob alice's annotation with 200: neither handler runs a permission predicate. -/
theorem imageList_annotations_ungated_cex :
    ImageList.get exDb bob = (.s200, [img7, img8, img9]) ∧
    AnnotationsJsonDetail.get exDb bob 4 = (.s200, some ann4) ∧
    resolveAccess exDb bob img7 = false ∧
    ann4.ownerEmail ≠ bob.email := by decide

/-- C3 amended: listing all images and retrieving an AnnotationsJson by id are
NOT gated by any permission predicate: the list handler returns every image to
any requester, and the annotation-detail handler's answer is the same for
every requester — the row with 200 when it exists, 404 otherwise. -/
theorem imageList_annotations_ungated (db : Db) (u v : User) (pk : Nat) :
    ImageList.get db u = (.s200, db.images) ∧
    AnnotationsJsonDetail.get db u pk = AnnotationsJsonDetail.get db v pk ∧
    AnnotationsJsonDetail.get db u pk =
      (match db.annotations.find? (fun a => a.id == pk) with
       | none => (.s404, none)
       | some a => (.s200, some a)) := by
  exact ⟨rfl, rfl, rfl⟩

/-- C4: contrary to the claim, a project-detail retrieval never ends in
200, 403 or 404: `get_object` unpacks the Python builtin `filter` with `**`,
raising an uncaught `TypeError` (a 500) on every request — here evaluated at
the failing input, project 1 requested by alice on the sample store. -/
theorem projectDetail_always_serverError :
    ProjectDetail.get exDb alice 1 = .serverError ∧
    (∀ (db : Db) (u : User) (pk : Nat),
      ProjectDetail.get db u pk ≠ .s200 ∧ ProjectDetail.get db u pk ≠ .s403 ∧
      ProjectDetail.get db u pk ≠ .s404) := by
  refine ⟨rfl, fun db u pk => ?_⟩
  refine ⟨?_, ?_, ?_⟩ <;> intro h <;> cases h

/-- C2: the failing input — alice, owner of image 7, shares it with group 5
and the request carries no `public` key.  Validation passes (`group_ids` is
present), yet the loop body evaluates `request.data['public'].lower()`,
raising an uncaught KeyError: the handler answers 500 with no grant made,
instead of granting and returning 200. -/
theorem shareImages_keyError_on_missing_public :
    ShareImages.post exDb alice ⟨some [7], some [5], none⟩ = (.serverError, exDb) ∧
    IsOwnerOrRefuse alice img7 = true := by decide

/-- C5: a JoinGroup addMember request by `u`, a member of a group named
`gname`, carrying an email: a missing target user answers 404; a missing group
answers 404 (vacuously — membership of `u` means the group exists); when the
target exists, the named group is found, the target is added to it and 200
returned. -/
theorem joinGroup_resolution (db : Db) (u : User) (gname e : String)
    (hmem : memberOfNamed db u gname = true) :
    (db.users.find? (fun x => x.email == e) = none →
      JoinGroup.post db u gname (some e) = (.s404, db)) ∧
    (db.groups.find? (fun g => g.name == gname) = none →
      JoinGroup.post db u gname (some e) = (.s404, db)) ∧
    (∀ t, db.users.find? (fun x => x.email == e) = some t →
      ∃ g, db.groups.find? (fun g => g.name == gname) = some g ∧ g.name = gname ∧
        JoinGroup.post db u gname (some e) = (.s200, addMembership db t.id g.id)) := by
  obtain ⟨g0, hg0, hp⟩ := List.any_eq_true.mp hmem
  rw [Bool.and_eq_true] at hp
  have hname : (g0.name == gname) = true := hp.1
  refine ⟨?_, ?_, ?_⟩
  · intro hu
    simp [JoinGroup.post, hmem, hu]
  · intro hg
    exact absurd hname (by simpa using List.find?_eq_none.mp hg g0 hg0)
  · intro t ht
    have hex : ∃ g, db.groups.find? (fun g => g.name == gname) = some g := by
      cases h : db.groups.find? (fun g => g.name == gname) with
      | none => exact absurd hname (by simpa using List.find?_eq_none.mp h g0 hg0)
      | some g => exact ⟨g, rfl⟩
    obtain ⟨g, hg⟩ := hex
    have hgname : g.name = gname := by
      have := List.find?_some hg
      simpa using this
    refine ⟨g, hg, hgname, ?_⟩
    simp [JoinGroup.post, hmem, ht, hg]

/-- C5 witness: in the sample store bob belongs to "team"; adding alice by
email works through the theorem at that concrete input. -/
theorem joinGroup_resolution_witness :
    (exDb.users.find? (fun x => x.email == "alice@example.com") = none →
      JoinGroup.post exDb bob "team" (some "alice@example.com") = (.s404, exDb)) ∧
    (exDb.groups.find? (fun g => g.name == "team") = none →
      JoinGroup.post exDb bob "team" (some "alice@example.com") = (.s404, exDb)) ∧
    (∀ t, exDb.users.find? (fun x => x.email == "alice@example.com") = some t →
      ∃ g, exDb.groups.find? (fun g => g.name == "team") = some g ∧ g.name = "team" ∧
        JoinGroup.post exDb bob "team" (some "alice@example.com") =
          (.s200, addMembership exDb t.id g.id)) :=
  joinGroup_resolution exDb bob "team" "alice@example.com" (by decide)

/-- C7 counterexample: `grp5` already holds view permission on alice's image
7; alice grants it again through `ShareImages.post` (200) and revokes it
through `ShareImages.delete` (200) — and the grant table ends empty, not in
its pre-grant state where the group could view the image. -/
theorem grantRevoke_not_inverse_cex :
    (ShareImages.post exDbShared alice ⟨some [7], some [5], some "false"⟩).1 = .s200 ∧
    (ShareImages.delete
        (ShareImages.post exDbShared alice ⟨some [7], some [5], some "false"⟩).2
        alice ⟨some [7], some [5], none⟩).1 = .s200 ∧
    (ShareImages.delete
        (ShareImages.post exDbShared alice ⟨some [7], some [5], some "false"⟩).2
        alice ⟨some [7], some [5], none⟩).2.perms = [] ∧
    exDbShared.perms = [(grp5.id, img7.id)] := by decide

/-- C7 amended: revoking right after granting restores the pre-grant
permission state provided the group did not already hold view permission on
the image; when it did, the revoke removes the pre-existing grant as well. -/
theorem revoke_after_grant_restores (gid iid : Nat) (perms : List (Nat × Nat))
    (h : (gid, iid) ∉ perms) :
    removePerm gid iid (assignPerm gid iid perms) = perms := by
  have hc : perms.contains (gid, iid) = false := by
    simpa using h
  have h1 : perms.filter (fun p => p ≠ (gid, iid)) = perms :=
    List.filter_eq_self.mpr (fun a ha => by
      simp only [ne_eq, decide_eq_true_eq]
      rintro rfl
      exact h ha)
  unfold assignPerm removePerm
  rw [hc]
  simp only [Bool.false_eq_true, if_false, List.filter_append, h1]
  simp

/-- C7 amended witness: at the concrete input gid 5, image 7, empty table. -/
theorem revoke_after_grant_restores_witness :
    removePerm 5 7 (assignPerm 5 7 []) = [] :=
  revoke_after_grant_restores 5 7 [] (by decide)

/-- C8: deleting an existing image as a non-owner answers 403 and keeps the
row; deleting as the owner answers 204 and removes it, after which any
retrieval of that id — metadata detail or media — answers 404. -/
theorem imageDelete_owner_gated (db : Db) (u v : User) (pk : Nat) (i : Image)
    (hi : imageById db pk = some i) :
    (i.ownerEmail ≠ u.email →
      ImageDetail.delete db u pk = (.s403, db)) ∧
    (i.ownerEmail = u.email →
      ImageDetail.delete db u pk = (.s204, deleteImage db pk) ∧
      (ImageDetail.get (deleteImage db pk) v pk).1 = .s404 ∧
      GetImage.get (deleteImage db pk) v pk = .s404) := by
  have hnone : imageById (deleteImage db pk) pk = none := by
    unfold imageById deleteImage
    dsimp only
    rw [List.find?_eq_none]
    intro x hx
    have hx2 := (List.mem_filter.mp hx).2
    simp_all
  constructor
  · intro hne
    have ho : IsOwnerOrRefuse u i = false := by
      simp [IsOwnerOrRefuse, ownsImage, hne]
    unfold ImageDetail.delete
    rw [hi]
    dsimp only
    rw [if_neg (by simp [ho])]
  · intro hown
    have ho : IsOwnerOrRefuse u i = true := by
      simp [IsOwnerOrRefuse, ownsImage, hown]
    refine ⟨?_, ?_, ?_⟩
    · unfold ImageDetail.delete
      rw [hi]
      dsimp only
      rw [if_pos (by simp [ho])]
    · unfold ImageDetail.get ImageDetail.getObject
      rw [hnone]
    · unfold GetImage.get
      rw [hnone]

/-- C8 witness: in the sample store, bob cannot delete alice's image 7, alice
can, and afterwards image 7 is gone for everyone. -/
theorem imageDelete_owner_gated_witness :
    (img7.ownerEmail ≠ bob.email →
      ImageDetail.delete exDb bob 7 = (.s403, exDb)) ∧
    (img7.ownerEmail = bob.email →
      ImageDetail.delete exDb bob 7 = (.s204, deleteImage exDb 7) ∧
      (ImageDetail.get (deleteImage exDb 7) bob 7).1 = .s404 ∧
      GetImage.get (deleteImage exDb 7) bob 7 = .s404) :=
  imageDelete_owner_gated exDb bob bob 7 img7 rfl

/-- C9: a successful group creation (valid data, 201) adds the requester to
the new group, so the requester immediately passes JoinGroup's membership
check (`memberOfNamed`, the gate of views.py line 171) for that group. -/
theorem createGroup_creator_joins (db : Db) (u : User) (name : String)
    (h : groupDataValid db name = true) :
    (CreateGroup.post db u name).1 = .s201 ∧
    memberOfNamed (CreateGroup.post db u name).2 u name = true := by
  unfold CreateGroup.post
  rw [if_pos h]
  dsimp only
  refine ⟨rfl, ?_⟩
  unfold memberOfNamed addMembership userInGroup
  dsimp only
  by_cases hc : db.memberships.contains (u.id, freshGroupId db) = true
  · rw [if_pos hc]
    dsimp only
    refine List.any_eq_true.mpr ⟨⟨freshGroupId db, name⟩, by simp, ?_⟩
    simp only [userInGroup]
    simpa using hc
  · rw [if_neg hc]
    dsimp only
    refine List.any_eq_true.mpr ⟨⟨freshGroupId db, name⟩, by simp, ?_⟩
    simp [userInGroup]

/-- An already-present pair survives `assignPerm`. -/
theorem mem_assignPerm (p : Nat × Nat) (g i : Nat) (perms : List (Nat × Nat))
    (h : p ∈ perms) : p ∈ assignPerm g i perms := by
  unfold assignPerm
  split
  · exact h
  · exact List.mem_append_left _ h

/-- `assignPerm` establishes its own pair. -/
theorem assignPerm_self (g i : Nat) (perms : List (Nat × Nat)) :
    (g, i) ∈ assignPerm g i perms := by
  unfold assignPerm
  split
  · next hc => simpa using hc
  · exact List.mem_append_right _ (by simp)

/-- Folding `assignPerm` over a group list keeps existing pairs. -/
theorem mem_foldl_assign (gs : List Group) (iid : Nat) (perms : List (Nat × Nat))
    (p : Nat × Nat) (h : p ∈ perms) :
    p ∈ gs.foldl (fun ps g => assignPerm g.id iid ps) perms := by
  induction gs generalizing perms with
  | nil => exact h
  | cons g t ih => exact ih _ (mem_assignPerm _ _ _ _ h)

/-- Folding `assignPerm` over a group list grants every listed group. -/
theorem foldl_assign_mem (gs : List Group) (g : Group) (iid : Nat) :
    ∀ (perms : List (Nat × Nat)), g ∈ gs →
      (g.id, iid) ∈ gs.foldl (fun ps x => assignPerm x.id iid ps) perms := by
  induction gs with
  | nil =>
    intro perms hg
    cases hg
  | cons x t ih =>
    intro perms hg
    rcases List.mem_cons.mp hg with h | h
    · subst h
      exact mem_foldl_assign t iid _ _ (assignPerm_self _ _ _)
    · exact ih _ h

/-- The grant loop never removes a pair from the permission table. -/
theorem sharePostLoop_mono (u : User) (pub : Option String)
    (gids : Option (List Nat)) (groups : List Group) :
    ∀ (imgs : List Image) (perms : List (Nat × Nat)) (p : Nat × Nat),
      p ∈ perms → p ∈ (sharePostLoop u pub gids groups imgs perms).2 := by
  intro imgs
  induction imgs with
  | nil =>
    intro perms p h
    simpa [sharePostLoop] using h
  | cons i t ih =>
    intro perms p h
    unfold sharePostLoop
    by_cases ho : IsOwnerOrRefuse u i = true
    · rw [if_pos ho]
      cases pub with
      | none => simpa using h
      | some s =>
        dsimp only
        by_cases hb : (pyLower s == "true") = true
        · rw [if_pos hb]
          cases hpg : groups.find? (fun g => g.id == publicGroupId) with
          | none => simpa using h
          | some pg =>
            dsimp only
            cases gids with
            | none => exact ih _ p (mem_assignPerm _ _ _ _ h)
            | some l =>
              exact ih _ p (mem_foldl_assign _ _ _ _ (mem_assignPerm _ _ _ _ h))
        · rw [if_neg hb]
          dsimp only
          cases gids with
          | none => exact ih _ p h
          | some l => exact ih _ p (mem_foldl_assign _ _ _ _ h)
    · rw [if_neg ho]
      simpa using h

/-- One owned image at the head of the grant loop: the loop continues on the
tail from the permissions the single-image loop produces (when the `public`
flag is present, and the public group exists if the flag is truthy). -/
theorem sharePostLoop_cons_owned (u : User) (s : String)
    (gids : Option (List Nat)) (groups : List Group)
    (hpub : (pyLower s == "true") = false ∨
      ∃ pg, groups.find? (fun g => g.id == publicGroupId) = some pg)
    (i : Image) (L : List Image) (perms : List (Nat × Nat))
    (hi : IsOwnerOrRefuse u i = true) :
    sharePostLoop u (some s) gids groups (i :: L) perms =
      sharePostLoop u (some s) gids groups L
        (sharePostLoop u (some s) gids groups [i] perms).2 := by
  rcases hpub with hf | ⟨pg, hpg⟩
  · simp [sharePostLoop, hi, hf]
  · by_cases hb : (pyLower s == "true") = true
    · simp [sharePostLoop, hi, hb, hpg]
    · simp [sharePostLoop, hi, hb]

/-- Processing one owned image grants every group whose id is listed in
`group_ids`. -/
theorem sharePostLoop_single_grants (u : User) (s : String) (l : List Nat)
    (groups : List Group)
    (hpub : (pyLower s == "true") = false ∨
      ∃ pg, groups.find? (fun g => g.id == publicGroupId) = some pg)
    (i : Image) (perms : List (Nat × Nat)) (hi : IsOwnerOrRefuse u i = true)
    (g : Group) (hg : g ∈ groups) (hcon : l.contains g.id = true) :
    (g.id, i.id) ∈ (sharePostLoop u (some s) (some l) groups [i] perms).2 := by
  have hf : g ∈ groups.filter (fun g => l.contains g.id) :=
    List.mem_filter.mpr ⟨hg, hcon⟩
  rcases hpub with hft | ⟨pg, hpg⟩
  · simp only [sharePostLoop, hi, hft, Bool.false_eq_true, if_false, if_true,
      eq_self_iff_true, if_pos]
    simpa [sharePostLoop, hi, hft] using foldl_assign_mem _ g i.id perms hf
  · by_cases hb : (pyLower s == "true") = true
    · simpa [sharePostLoop, hi, hb, hpg] using
        foldl_assign_mem _ g i.id (assignPerm pg.id i.id perms) hf
    · simpa [sharePostLoop, hi, hb] using foldl_assign_mem _ g i.id perms hf

/-- Processing an all-owned prefix first, the grant loop continues on the rest
from the permissions the prefix produced. -/
theorem sharePostLoop_append_owned (u : User) (s : String)
    (gids : Option (List Nat)) (groups : List Group)
    (hpub : (pyLower s == "true") = false ∨
      ∃ pg, groups.find? (fun g => g.id == publicGroupId) = some pg)
    (l1 rest : List Image) (perms : List (Nat × Nat))
    (h1 : ∀ i ∈ l1, IsOwnerOrRefuse u i = true) :
    sharePostLoop u (some s) gids groups (l1 ++ rest) perms =
      sharePostLoop u (some s) gids groups rest
        (sharePostLoop u (some s) gids groups l1 perms).2 := by
  revert h1
  induction l1 generalizing perms with
  | nil =>
    intro _
    simp [sharePostLoop]
  | cons i t ih =>
    intro h1
    have hi : IsOwnerOrRefuse u i = true := h1 i (by simp)
    have ht : ∀ j ∈ t, IsOwnerOrRefuse u j = true := fun j hj => h1 j (by simp [hj])
    rw [List.cons_append,
      sharePostLoop_cons_owned u s gids groups hpub i (t ++ rest) perms hi,
      ih _ ht,
      sharePostLoop_cons_owned u s gids groups hpub i t perms hi]

/-- A non-owned image at the head stops the grant loop with 403, keeping the
permissions accumulated so far. -/
theorem sharePostLoop_cons_unowned (u : User) (pub : Option String)
    (gids : Option (List Nat)) (groups : List Group) (bad : Image)
    (l2 : List Image) (perms : List (Nat × Nat))
    (h2 : IsOwnerOrRefuse u bad = false) :
    sharePostLoop u pub gids groups (bad :: l2) perms = (.s403, perms) := by
  unfold sharePostLoop
  rw [if_neg (by simp [h2])]

/-- Every image of an all-owned list gets a grant for every group whose id is
listed, and the grant survives to the end of the loop. -/
theorem sharePostLoop_grants (u : User) (s : String) (l : List Nat)
    (groups : List Group)
    (hpub : (pyLower s == "true") = false ∨
      ∃ pg, groups.find? (fun g => g.id == publicGroupId) = some pg)
    (l1 : List Image) :
    ∀ (perms : List (Nat × Nat)), (∀ i ∈ l1, IsOwnerOrRefuse u i = true) →
      ∀ i ∈ l1, ∀ g ∈ groups, l.contains g.id = true →
        (g.id, i.id) ∈ (sharePostLoop u (some s) (some l) groups l1 perms).2 := by
  induction l1 with
  | nil =>
    intro perms _ i hi
    cases hi
  | cons x t ih =>
    intro perms h1 i hi g hg hcon
    have hx : IsOwnerOrRefuse u x = true := h1 x (by simp)
    have ht : ∀ j ∈ t, IsOwnerOrRefuse u j = true := fun j hj => h1 j (by simp [hj])
    rw [sharePostLoop_cons_owned u s (some l) groups hpub x t perms hx]
    rcases List.mem_cons.mp hi with h | h
    · subst h
      exact sharePostLoop_mono u (some s) (some l) groups t _ _
        (sharePostLoop_single_grants u s l groups hpub i perms hx g hg hcon)
    · exact ih _ ht i h g hg hcon

/-- Processing one owned image under a truthy `public` flag grants the public
group, whether or not `group_ids` is present. -/
theorem sharePostLoop_single_public (u : User) (s : String)
    (gids : Option (List Nat)) (groups : List Group) (i : Image)
    (perms : List (Nat × Nat)) (hi : IsOwnerOrRefuse u i = true)
    (hb : (pyLower s == "true") = true) (pg : Group)
    (hpg : groups.find? (fun g => g.id == publicGroupId) = some pg) :
    (pg.id, i.id) ∈ (sharePostLoop u (some s) gids groups [i] perms).2 := by
  cases gids with
  | none =>
    simpa [sharePostLoop, hi, hb, hpg] using assignPerm_self pg.id i.id perms
  | some l =>
    simpa [sharePostLoop, hi, hb, hpg] using
      mem_foldl_assign _ i.id _ _ (assignPerm_self pg.id i.id perms)

/-- Under a truthy `public` flag, every image of an all-owned list gets a
public-group grant, and the grant survives to the end of the loop. -/
theorem sharePostLoop_public_grants (u : User) (s : String)
    (gids : Option (List Nat)) (groups : List Group)
    (hb : (pyLower s == "true") = true) (pg : Group)
    (hpg : groups.find? (fun g => g.id == publicGroupId) = some pg)
    (l1 : List Image) :
    ∀ (perms : List (Nat × Nat)), (∀ i ∈ l1, IsOwnerOrRefuse u i = true) →
      ∀ i ∈ l1, (pg.id, i.id) ∈ (sharePostLoop u (some s) gids groups l1 perms).2 := by
  induction l1 with
  | nil =>
    intro perms _ i hi
    cases hi
  | cons x t ih =>
    intro perms h1 i hi
    have hx : IsOwnerOrRefuse u x = true := h1 x (by simp)
    have ht : ∀ j ∈ t, IsOwnerOrRefuse u j = true := fun j hj => h1 j (by simp [hj])
    rw [sharePostLoop_cons_owned u s gids groups (Or.inr ⟨pg, hpg⟩) x t perms hx]
    rcases List.mem_cons.mp hi with h | h
    · subst h
      exact sharePostLoop_mono u (some s) gids groups t _ _
        (sharePostLoop_single_public u s gids groups i perms hx hb pg hpg)
    · exact ih _ ht i h

/-- C6 counterexample: a grant request whose `public` field is absent fails at
the FIRST image of the batch — image 7, which alice owns — with an uncaught
KeyError (500) and no grant applied, not at the first image she does not own
(image 9): the batch does not fail at the first unowned image as claimed. -/
theorem shareImages_batch_cex :
    ShareImages.post exDb alice ⟨some [7, 9], some [5], none⟩ = (.serverError, exDb) ∧
    IsOwnerOrRefuse alice img7 = true ∧
    IsOwnerOrRefuse alice img9 = false ∧
    exDb.images.filter (fun i => [7, 9].contains i.id) = [img7, img9] := by decide

/-- C6 amended: for every grant request that carries a `public` field, passes
validation (`group_ids` present or the flag truthy), and finds the public
group row when the flag is truthy, ownership is checked image by image in
iteration order: the batch answers 403 at the first image the requester does
not own, and the view grants already applied to the earlier, owned images —
to every listed group, and to the public group when the flag is truthy — are
kept, not rolled back. -/
theorem shareImages_batch_stops_at_first_unowned (db : Db) (u : User)
    (ids : List Nat) (gids : Option (List Nat)) (s : String)
    (l1 l2 : List Image) (bad : Image)
    (hvalid : (gids.isSome || (pyLower s == "true")) = true)
    (hfilter : db.images.filter (fun i => ids.contains i.id) = l1 ++ bad :: l2)
    (h1 : ∀ i ∈ l1, IsOwnerOrRefuse u i = true)
    (h2 : IsOwnerOrRefuse u bad = false)
    (hpub : (pyLower s == "true") = false ∨
      ∃ pg, db.groups.find? (fun g => g.id == publicGroupId) = some pg) :
    ShareImages.post db u ⟨some ids, gids, some s⟩ =
      (.s403, { db with perms :=
        (sharePostLoop u (some s) gids db.groups l1 db.perms).2 }) ∧
    (∀ i ∈ l1, ∀ gl, gids = some gl → ∀ g ∈ db.groups, gl.contains g.id = true →
      (g.id, i.id) ∈ (ShareImages.post db u ⟨some ids, gids, some s⟩).2.perms) ∧
    (∀ i ∈ l1, (pyLower s == "true") = true →
      ∀ pg, db.groups.find? (fun g => g.id == publicGroupId) = some pg →
        (pg.id, i.id) ∈ (ShareImages.post db u ⟨some ids, gids, some s⟩).2.perms) := by
  have hmain : ShareImages.post db u ⟨some ids, gids, some s⟩ =
      (.s403, { db with perms :=
        (sharePostLoop u (some s) gids db.groups l1 db.perms).2 }) := by
    unfold ShareImages.post
    dsimp only [ShareRequest.publicTruthy]
    rw [if_pos hvalid, hfilter,
      sharePostLoop_append_owned u s gids db.groups hpub l1 (bad :: l2) db.perms h1,
      sharePostLoop_cons_unowned u (some s) gids db.groups bad l2 _ h2]
  refine ⟨hmain, ?_, ?_⟩
  · intro i hi gl hgl g hg hcon
    subst hgl
    rw [hmain]
    exact sharePostLoop_grants u s gl db.groups hpub l1 db.perms h1 i hi g hg hcon
  · intro i hi hb pg hpg
    rw [hmain]
    exact sharePostLoop_public_grants u s gids db.groups hb pg hpg l1 db.perms h1 i hi

/-- C6 amended witness: alice shares images 7 (hers) and 9 (bob's) with
`public` set to "true" and no `group_ids` key, on the store holding the public
group row: 403, and the public-group grant on image 7 is in the final table. -/
theorem shareImages_batch_stops_witness :
    (ShareImages.post exDbPub alice ⟨some [7, 9], none, some "true"⟩ =
      (.s403, { exDbPub with perms :=
        (sharePostLoop alice (some "true") none exDbPub.groups [img7] exDbPub.perms).2 }) ∧
    (∀ i ∈ [img7], ∀ gl, (none : Option (List Nat)) = some gl →
      ∀ g ∈ exDbPub.groups, gl.contains g.id = true →
        (g.id, i.id) ∈
          (ShareImages.post exDbPub alice ⟨some [7, 9], none, some "true"⟩).2.perms) ∧
    (∀ i ∈ [img7], (pyLower "true" == "true") = true →
      ∀ pg, exDbPub.groups.find? (fun g => g.id == publicGroupId) = some pg →
        (pg.id, i.id) ∈
          (ShareImages.post exDbPub alice ⟨some [7, 9], none, some "true"⟩).2.perms)) :=
  shareImages_batch_stops_at_first_unowned exDbPub alice [7, 9] none "true"
    [img7] [] img9 (by decide) (by decide) (by decide) (by decide)
    (Or.inr ⟨pubGrp, by decide⟩)

/-- C9 witness: alice creates the fresh group "crew" on the sample store. -/
theorem createGroup_creator_joins_witness :
    (CreateGroup.post exDb alice "crew").1 = .s201 ∧
    memberOfNamed (CreateGroup.post exDb alice "crew").2 alice "crew" = true :=
  createGroup_creator_joins exDb alice "crew" (by decide)

end Noter
